import Mathlib

/-!
Verification of the `AccessControlDAL` class from
`packages/database/src/models/access_control.ts` (ChatGPT-Admin-Web).

The class talks to an external Redis-like key-value store.  We embed the
store as explicit state: a partial map of `sessionToken:<token>` hashes,
a partial map of key TTLs, and a map from keys to sorted sets (sorted
lists of numeric scores, score = member = timestamp in milliseconds).
Each DAL method becomes a pure function from the store (plus the
explicit inputs the original reads from the environment: the wall clock
and the md5 hash function from the `spark-md5` library) to its result
and the updated store.
-/

namespace AccessControl

/-- The `Model.SessionToken` record stored under `sessionToken:<token>`. -/
structure SessionToken where
  createdAt : Nat
  isRevoked : Bool
  userEmail : String
  deriving Repr, DecidableEq

/-- The key-value store state: session hashes, per-key TTLs (seconds), and
sorted sets of timestamps. -/
structure Store where
  hashes : String → Option SessionToken
  ttls : String → Option Nat
  zsets : String → List Nat

/-- `redis.hmset key record`: write the hash stored at `key`. -/
def Store.hmset (s : Store) (key : String) (v : SessionToken) : Store :=
  { s with hashes := fun k => if k = key then some v else s.hashes k }

/-- `redis.expire key secs`: set the TTL of `key`. -/
def Store.setExpiry (s : Store) (key : String) (secs : Nat) : Store :=
  { s with ttls := fun k => if k = key then some secs else s.ttls k }

/-- `redis.hgetall key`: read the hash stored at `key` (`none` if absent). -/
def Store.hgetall (s : Store) (key : String) : Option SessionToken :=
  s.hashes key

/-- `redis.zremrangebyscore key lo hi`: remove every member of the sorted
set at `key` whose score lies in the inclusive range `[lo, hi]`. -/
def Store.zremrangebyscore (s : Store) (key : String) (lo hi : Int) : Store :=
  { s with zsets := fun k =>
      if k = key then
        (s.zsets k).filter (fun t => !(decide (lo ≤ (t : Int) ∧ (t : Int) ≤ hi)))
      else s.zsets k }

/-- `redis.zrange key 0 -1`: the full member list of the sorted set at
`key`, in ascending score order. -/
def Store.zrangeAll (s : Store) (key : String) : List Nat :=
  s.zsets key

/-- Insert a score into a sorted list, keeping it sorted and duplicate-free
(sorted sets are sets: re-adding an existing member is a no-op on the
member list when score = member). -/
def zinsert (t : Nat) : List Nat → List Nat
  | [] => [t]
  | x :: xs => if t < x then t :: x :: xs else if t = x then x :: xs else x :: zinsert t xs

/-- `redis.zadd key {member: t, score: t}`. -/
def Store.zadd (s : Store) (key : String) (t : Nat) : Store :=
  { s with zsets := fun k => if k = key then zinsert t (s.zsets k) else s.zsets k }

/-- `redis.zremrangebyrank key 0 -1`: remove every member of the sorted set
at `key`. -/
def Store.zremrangebyrankAll (s : Store) (key : String) : Store :=
  { s with zsets := fun k => if k = key then [] else s.zsets k }

/-- JS `String.prototype.includes` specialised to a single character, as in
`emailOrIP.includes('@')`. -/
def includes (s : String) (c : Char) : Bool :=
  s.data.contains c

/-- JS whitespace test for the characters `String.prototype.trim` strips. -/
def isJsSpace (c : Char) : Bool :=
  c = ' ' ∨ c = '\t' ∨ c = '\n' ∨ c = '\r' ∨ c = '\x0b' ∨ c = '\x0c'

/-- JS `String.prototype.trim`: strip whitespace from both ends. -/
def jsTrim (s : String) : String :=
  String.mk ((((s.data.dropWhile isJsSpace).reverse).dropWhile isJsSpace).reverse)

/-- The constructor argument of `AccessControlDAL`: an email or an IP. -/
structure AccessControlDAL where
  emailOrIP : String

/-- `private isIP = !emailOrIP.includes('@')`, fixed at construction. -/
def AccessControlDAL.isIP (d : AccessControlDAL) : Bool :=
  !(includes d.emailOrIP '@')

/-- The store key `sessionToken:<token>`. -/
def sessionKey (token : String) : String :=
  "sessionToken:" ++ token

/-- The store key `limit:<emailOrIP>`. -/
def limitKey (id : String) : String :=
  "limit:" ++ id

/-- `newSessionToken()`.  The wall clock enters twice in the original:
`new Date()` rendered into the hashed string (`dateStr`) and `Date.now()`
(`nowMs`); `md5hash` stands for `md5.hash` of the `spark-md5` library. -/
def newSessionToken (d : AccessControlDAL) (md5hash : String → String)
    (dateStr : String) (nowMs : Nat) (s : Store) : Option String × Store :=
  if d.isIP then (none, s)
  else
    let token := md5hash (d.emailOrIP ++ ":" ++ dateStr)
    let record : SessionToken :=
      { createdAt := nowMs, isRevoked := false, userEmail := d.emailOrIP }
    let s := s.hmset (sessionKey token) record
    let s := s.setExpiry (sessionKey token) (24 * 60 * 60)
    (some token, s)

/-- `validateSessionToken(token)`. -/
def validateSessionToken (d : AccessControlDAL) (token : String) (s : Store) :
    Option String × Store :=
  if d.isIP then (none, s)
  else
    match s.hgetall (sessionKey (jsTrim token)) with
    | none => (none, s)
    | some record =>
      if record.isRevoked then (none, s)
      else (some record.userEmail, s.setExpiry (sessionKey (jsTrim token)) (24 * 60 * 60))

/-- `getRequestsTimeStamp()`.  The plan tier comes from the external
`UserDAL.getPlan()` and is passed in as `plan`; `nowMs` is `Date.now()`. -/
def getRequestsTimeStamp (d : AccessControlDAL) (plan : String) (nowMs : Nat)
    (s : Store) : List Nat × Store :=
  let key := limitKey d.emailOrIP
  let s :=
    if plan = "free" then s.zremrangebyscore key 0 ((nowMs : Int) - 60 * 60 * 1000)
    else s.zremrangebyscore key 0 ((nowMs : Int) - 3 * 60 * 60 * 1000)
  (s.zrangeAll key, s)

/-- `newRequest()`: insert `Date.now()` into the identity's sorted set and
return it. -/
def newRequest (d : AccessControlDAL) (nowMs : Nat) (s : Store) : Nat × Store :=
  let key := limitKey d.emailOrIP
  (nowMs, s.zadd key nowMs)

/-- The static `getRequestsTimeStampsOf(...emailOrIP)`: one pipelined
`zrange key 0 -1` per identity, results in input order.  The pipeline
issues only reads, so no store is returned. -/
def getRequestsTimeStampsOf (ids : List String) (s : Store) : List (List Nat) :=
  ids.map (fun i => s.zrangeAll (limitKey i))

/-- `resetLimit()`: clear the identity's sorted set, then read it back. -/
def resetLimit (d : AccessControlDAL) (s : Store) : List Nat × Store :=
  let key := limitKey d.emailOrIP
  let s := s.zremrangebyrankAll key
  (s.zrangeAll key, s)

/-- Iterated `newRequest` at the given sequence of clock readings. -/
def newRequests (d : AccessControlDAL) (ts : List Nat) (s : Store) : Store :=
  ts.foldl (fun s t => (newRequest d t s).2) s

/-- The pruning window, in ms, selected inside `getRequestsTimeStamp`. -/
def planWindow (plan : String) : Nat :=
  if plan = "free" then 60 * 60 * 1000 else 3 * 60 * 60 * 1000

/-- The empty store, used to build concrete witnesses. -/
def Store.empty : Store :=
  { hashes := fun _ => none, ttls := fun _ => none, zsets := fun _ => [] }

/-- C5: for every IP identity (a string not containing an at-sign),
`newSessionToken()` returns nothing, and `validateSessionToken(t)` returns
nothing for every token argument `t`. -/
theorem c5_ip_identities_get_no_sessions (E : String) (hE : includes E '@' = false)
    (md5hash : String → String) (dateStr : String) (nowMs : Nat) (t : String) (s : Store) :
    (newSessionToken ⟨E⟩ md5hash dateStr nowMs s).1 = none ∧
    (validateSessionToken ⟨E⟩ t s).1 = none := by
  have hip : (AccessControlDAL.mk E).isIP = true := by
    simp [AccessControlDAL.isIP, hE]
  exact ⟨by simp [newSessionToken, hip], by simp [validateSessionToken, hip]⟩

theorem c5_ip_identities_get_no_sessions_witness :
    includes "1.2.3.4" '@' = false ∧
    ((newSessionToken ⟨"1.2.3.4"⟩ (fun _ => "h") "d" 0 Store.empty).1 = none ∧
     (validateSessionToken ⟨"1.2.3.4"⟩ "tok" Store.empty).1 = none) :=
  ⟨by decide,
   c5_ip_identities_get_no_sessions "1.2.3.4" (by decide) (fun _ => "h") "d" 0 "tok" Store.empty⟩

/-- C9: for every IP identity, `newSessionToken()` and
`validateSessionToken()` return on the IP branch before issuing any store
operation, so the entire store state is unchanged by these calls. -/
theorem c9_ip_branch_leaves_store_unchanged (E : String) (hE : includes E '@' = false)
    (md5hash : String → String) (dateStr : String) (nowMs : Nat) (t : String) (s : Store) :
    (newSessionToken ⟨E⟩ md5hash dateStr nowMs s).2 = s ∧
    (validateSessionToken ⟨E⟩ t s).2 = s := by
  have hip : (AccessControlDAL.mk E).isIP = true := by
    simp [AccessControlDAL.isIP, hE]
  exact ⟨by simp [newSessionToken, hip], by simp [validateSessionToken, hip]⟩

theorem c9_ip_branch_leaves_store_unchanged_witness :
    includes "10.0.0.1" '@' = false ∧
    ((newSessionToken ⟨"10.0.0.1"⟩ (fun _ => "h") "d" 5 Store.empty).2 = Store.empty ∧
     (validateSessionToken ⟨"10.0.0.1"⟩ "tok" Store.empty).2 = Store.empty) :=
  ⟨by decide,
   c9_ip_branch_leaves_store_unchanged "10.0.0.1" (by decide) (fun _ => "h") "d" 5 "tok"
     Store.empty⟩

/-- C10: the token produced by `newSessionToken` is a deterministic function
of the identity string and the current wall-clock reading: it equals the md5
hash of the identity concatenated (after a colon) with the rendered clock,
so two calls for the same email identity with an equal clock reading produce
the identical token string, whatever store state and `Date.now()` reading
each call sees. -/
theorem c10_token_is_deterministic_in_identity_and_clock (E : String)
    (hE : includes E '@' = true) (md5hash : String → String) (dateStr : String)
    (n1 n2 : Nat) (s1 s2 : Store) :
    (newSessionToken ⟨E⟩ md5hash dateStr n1 s1).1 = some (md5hash (E ++ ":" ++ dateStr)) ∧
    (newSessionToken ⟨E⟩ md5hash dateStr n1 s1).1 =
      (newSessionToken ⟨E⟩ md5hash dateStr n2 s2).1 := by
  have hip : (AccessControlDAL.mk E).isIP = false := by
    simp [AccessControlDAL.isIP, hE]
  exact ⟨by simp [newSessionToken, hip], by simp [newSessionToken, hip]⟩

theorem c10_token_is_deterministic_in_identity_and_clock_witness :
    includes "a@b.com" '@' = true ∧
    ((newSessionToken ⟨"a@b.com"⟩ (fun x => x) "T" 1 Store.empty).1 =
        some ((fun x => x) ("a@b.com" ++ ":" ++ "T")) ∧
     (newSessionToken ⟨"a@b.com"⟩ (fun x => x) "T" 1 Store.empty).1 =
       (newSessionToken ⟨"a@b.com"⟩ (fun x => x) "T" 2 Store.empty).1) :=
  ⟨by decide,
   c10_token_is_deterministic_in_identity_and_clock "a@b.com" (by decide) (fun x => x) "T"
     1 2 Store.empty Store.empty⟩

/-- C1: for every email identity E (a string containing an at-sign),
calling `newSessionToken()` and then immediately calling
`validateSessionToken` with the returned token returns E (the `userEmail`
stored in the session record).  The hypothesis `htok` records that the md5
hex digest carries no surrounding whitespace, so the `trim` inside
validation leaves the token unchanged. -/
theorem c1_new_then_validate_returns_email (E : String) (hE : includes E '@' = true)
    (md5hash : String → String) (dateStr : String) (nowMs : Nat) (s : Store)
    (htok : jsTrim (md5hash (E ++ ":" ++ dateStr)) = md5hash (E ++ ":" ++ dateStr)) :
    ∃ token : String,
      (newSessionToken ⟨E⟩ md5hash dateStr nowMs s).1 = some token ∧
      (validateSessionToken ⟨E⟩ token (newSessionToken ⟨E⟩ md5hash dateStr nowMs s).2).1 =
        some E := by
  have hip : (AccessControlDAL.mk E).isIP = false := by
    simp [AccessControlDAL.isIP, hE]
  refine ⟨md5hash (E ++ ":" ++ dateStr), by simp [newSessionToken, hip], ?_⟩
  simp [newSessionToken, validateSessionToken, hip, htok, Store.hgetall, Store.setExpiry,
    Store.hmset]

theorem c1_new_then_validate_returns_email_witness :
    includes "a@b.com" '@' = true ∧
    jsTrim ((fun _ => "deadbeef") ("a@b.com" ++ ":" ++ "T")) =
      (fun _ => "deadbeef") ("a@b.com" ++ ":" ++ "T") ∧
    ∃ token : String,
      (newSessionToken ⟨"a@b.com"⟩ (fun _ => "deadbeef") "T" 7 Store.empty).1 = some token ∧
      (validateSessionToken ⟨"a@b.com"⟩ token
        (newSessionToken ⟨"a@b.com"⟩ (fun _ => "deadbeef") "T" 7 Store.empty).2).1 =
        some "a@b.com" :=
  ⟨by decide, by decide,
   c1_new_then_validate_returns_email "a@b.com" (by decide) (fun _ => "deadbeef") "T" 7
     Store.empty (by decide)⟩

/-- C2: for every email identity and every token string,
`validateSessionToken` trims whitespace from the token, looks the session
record up under the trimmed token, and returns nothing both when no record
exists for the trimmed token and when the stored record has `isRevoked`
set to true; in particular, after `isRevoked` is set true directly in the
store, validation of that token returns nothing. -/
theorem c2_validate_rejects_absent_and_revoked (E token : String)
    (hE : includes E '@' = true) (s : Store) :
    (s.hashes (sessionKey (jsTrim token)) = none →
      (validateSessionToken ⟨E⟩ token s).1 = none) ∧
    (∀ record : SessionToken, s.hashes (sessionKey (jsTrim token)) = some record →
      record.isRevoked = true → (validateSessionToken ⟨E⟩ token s).1 = none) ∧
    (∀ record : SessionToken,
      (validateSessionToken ⟨E⟩ token
        (s.hmset (sessionKey (jsTrim token)) { record with isRevoked := true })).1 = none) := by
  have hip : (AccessControlDAL.mk E).isIP = false := by
    simp [AccessControlDAL.isIP, hE]
  refine ⟨fun habs => ?_, fun record hrec hrev => ?_, fun record => ?_⟩
  · simp [validateSessionToken, hip, Store.hgetall, habs]
  · simp [validateSessionToken, hip, Store.hgetall, hrec, hrev]
  · simp [validateSessionToken, hip, Store.hgetall, Store.hmset]

theorem c2_validate_rejects_absent_and_revoked_witness :
    includes "a@b.com" '@' = true ∧
    (validateSessionToken ⟨"a@b.com"⟩ " tok " Store.empty).1 = none ∧
    (validateSessionToken ⟨"a@b.com"⟩ " tok "
      (Store.empty.hmset (sessionKey (jsTrim " tok "))
        { createdAt := 0, isRevoked := true, userEmail := "a@b.com" })).1 = none :=
  ⟨by decide,
   (c2_validate_rejects_absent_and_revoked "a@b.com" " tok " (by decide) Store.empty).1 rfl,
   (c2_validate_rejects_absent_and_revoked "a@b.com" " tok " (by decide) Store.empty).2.2
     { createdAt := 0, isRevoked := false, userEmail := "a@b.com" }⟩

/-- C8: for every email identity and every valid (present, non-revoked)
token, a successful `validateSessionToken` call resets the session record's
store TTL to 86400 seconds (sliding expiry), and `newSessionToken` sets the
same 86400-second TTL on the record it creates; no other field of the
session record is modified by validation (the hash contents are untouched,
and so are the sorted sets). -/
theorem c8_ttl_86400_on_create_and_validate (E token : String)
    (hE : includes E '@' = true) (md5hash : String → String) (dateStr : String)
    (nowMs : Nat) (s : Store) (record : SessionToken)
    (hfound : s.hashes (sessionKey (jsTrim token)) = some record)
    (hrev : record.isRevoked = false) :
    (validateSessionToken ⟨E⟩ token s).2.ttls (sessionKey (jsTrim token)) = some 86400 ∧
    (∀ k, (validateSessionToken ⟨E⟩ token s).2.hashes k = s.hashes k) ∧
    (∀ k, (validateSessionToken ⟨E⟩ token s).2.zsets k = s.zsets k) ∧
    (∀ tok, (newSessionToken ⟨E⟩ md5hash dateStr nowMs s).1 = some tok →
      (newSessionToken ⟨E⟩ md5hash dateStr nowMs s).2.ttls (sessionKey tok) = some 86400) := by
  have hip : (AccessControlDAL.mk E).isIP = false := by
    simp [AccessControlDAL.isIP, hE]
  refine ⟨?_, fun k => ?_, fun k => ?_, fun tok htok => ?_⟩
  · simp [validateSessionToken, hip, Store.hgetall, hfound, hrev, Store.setExpiry]
  · simp [validateSessionToken, hip, Store.hgetall, hfound, hrev, Store.setExpiry]
  · simp [validateSessionToken, hip, Store.hgetall, hfound, hrev, Store.setExpiry]
  · have : tok = md5hash (E ++ ":" ++ dateStr) := by
      have := htok
      simp [newSessionToken, hip] at this
      exact this.symm
    subst this
    simp [newSessionToken, hip, Store.setExpiry, Store.hmset]

theorem c8_ttl_86400_on_create_and_validate_witness :
    includes "a@b.com" '@' = true ∧
    (Store.empty.hmset (sessionKey (jsTrim "tok"))
        { createdAt := 0, isRevoked := false, userEmail := "a@b.com" }).hashes
        (sessionKey (jsTrim "tok")) =
      some { createdAt := 0, isRevoked := false, userEmail := "a@b.com" } ∧
    (validateSessionToken ⟨"a@b.com"⟩ "tok"
        (Store.empty.hmset (sessionKey (jsTrim "tok"))
          { createdAt := 0, isRevoked := false, userEmail := "a@b.com" })).2.ttls
        (sessionKey (jsTrim "tok")) = some 86400 :=
  ⟨by decide, by decide,
   (c8_ttl_86400_on_create_and_validate "a@b.com" "tok" (by decide) (fun _ => "h") "d" 0
      (Store.empty.hmset (sessionKey (jsTrim "tok"))
        { createdAt := 0, isRevoked := false, userEmail := "a@b.com" })
      { createdAt := 0, isRevoked := false, userEmail := "a@b.com" }
      (by decide) (by decide)).1⟩

/-- C6: for every identity and every prior store state, `resetLimit()`
removes every member of the identity's ordered set and returns an empty
sequence, and a `getRequestsTimeStamp()` call made afterwards (with no
intervening `newRequest`, whatever plan and clock it sees) also returns an
empty sequence. -/
theorem c6_reset_clears_and_stays_empty (id plan : String) (nowMs : Nat) (s : Store) :
    (resetLimit ⟨id⟩ s).1 = [] ∧
    (resetLimit ⟨id⟩ s).2.zsets (limitKey id) = [] ∧
    (getRequestsTimeStamp ⟨id⟩ plan nowMs (resetLimit ⟨id⟩ s).2).1 = [] := by
  refine ⟨?_, ?_, ?_⟩
  · simp [resetLimit, Store.zremrangebyrankAll, Store.zrangeAll]
  · simp [resetLimit, Store.zremrangebyrankAll]
  · by_cases hp : plan = "free" <;>
      simp [resetLimit, getRequestsTimeStamp, Store.zremrangebyrankAll,
        Store.zremrangebyscore, Store.zrangeAll, hp]

/-- C7: for every list of identities, the static
`getRequestsTimeStampsOf(I1, ..., In)` returns an n-element list of
timestamp sequences whose order matches the input order, where the k-th
element equals the raw ordered-set contents stored for the k-th identity;
the call issues only range reads, so no identity's set is pruned. -/
theorem c7_batch_read_matches_raw_sets (ids : List String) (s : Store) :
    (getRequestsTimeStampsOf ids s).length = ids.length ∧
    ∀ k : Fin ids.length,
      (getRequestsTimeStampsOf ids s).get
          (Fin.cast (by simp [getRequestsTimeStampsOf]) k) =
        s.zsets (limitKey (ids.get k)) := by
  refine ⟨by simp [getRequestsTimeStampsOf], fun k => ?_⟩
  simp [getRequestsTimeStampsOf, Store.zrangeAll]

/-- Unfolding `getRequestsTimeStamp`: the returned list is the stored set
filtered by the plan-dependent expiry bound. -/
theorem getRequestsTimeStamp_fst (d : AccessControlDAL) (plan : String) (nowMs : Nat)
    (s : Store) :
    (getRequestsTimeStamp d plan nowMs s).1 =
      (s.zsets (limitKey d.emailOrIP)).filter
        (fun (t : Nat) =>
          !(decide ((0 : Int) ≤ (t : Int) ∧
            (t : Int) ≤ (nowMs : Int) - (planWindow plan : Int)))) := by
  by_cases hp : plan = "free" <;>
    simp [getRequestsTimeStamp, planWindow, hp, Store.zremrangebyscore, Store.zrangeAll]

/-- Inserting an element strictly above everything in the list appends it. -/
theorem zinsert_of_forall_lt (t : Nat) (l : List Nat) (h : ∀ x ∈ l, x < t) :
    zinsert t l = l ++ [t] := by
  induction l with
  | nil => rfl
  | cons x xs ih =>
    have hx : x < t := h x (by simp)
    have h1 : ¬ t < x := Nat.lt_asymm hx
    have h2 : ¬ t = x := Nat.ne_of_gt hx
    simp [zinsert, h1, h2, ih (fun y hy => h y (by simp [hy]))]

/-- Folding `zinsert` over a run of timestamps that continues an already
sorted accumulator just appends them in order. -/
theorem foldl_zinsert_of_sorted (ts : List Nat) (acc : List Nat)
    (h : List.Sorted (fun a b => a < b) (acc ++ ts)) :
    ts.foldl (fun l t => zinsert t l) acc = acc ++ ts := by
  induction ts generalizing acc with
  | nil => simp
  | cons t ts ih =>
    have hlt : ∀ x ∈ acc, x < t := by
      intro x hx
      exact ((List.pairwise_append.mp h).2.2) x hx t (by simp)
    have hstep : zinsert t acc = acc ++ [t] := zinsert_of_forall_lt t acc hlt
    have h' : List.Sorted (fun a b => a < b) ((acc ++ [t]) ++ ts) := by
      simpa [List.append_assoc] using h
    calc (t :: ts).foldl (fun l t => zinsert t l) acc
        = ts.foldl (fun l t => zinsert t l) (acc ++ [t]) := by simp [List.foldl, hstep]
      _ = (acc ++ [t]) ++ ts := ih (acc ++ [t]) h'
      _ = acc ++ t :: ts := by simp

/-- Iterated `newRequest` folds `zinsert` into the identity's sorted set. -/
theorem newRequests_zsets (d : AccessControlDAL) (ts : List Nat) (s : Store) :
    (newRequests d ts s).zsets (limitKey d.emailOrIP) =
      ts.foldl (fun l t => zinsert t l) (s.zsets (limitKey d.emailOrIP)) := by
  induction ts generalizing s with
  | nil => rfl
  | cons t ts ih =>
    have h1 : (newRequest d t s).2.zsets (limitKey d.emailOrIP) =
        zinsert t (s.zsets (limitKey d.emailOrIP)) := by
      simp [newRequest, Store.zadd]
    calc (newRequests d (t :: ts) s).zsets (limitKey d.emailOrIP)
        = (newRequests d ts (newRequest d t s).2).zsets (limitKey d.emailOrIP) := rfl
      _ = ts.foldl (fun l t => zinsert t l)
            ((newRequest d t s).2.zsets (limitKey d.emailOrIP)) := ih _
      _ = ts.foldl (fun l t => zinsert t l)
            (zinsert t (s.zsets (limitKey d.emailOrIP))) := by rw [h1]
      _ = (t :: ts).foldl (fun l t => zinsert t l)
            (s.zsets (limitKey d.emailOrIP)) := rfl

/-- C3: for every identity, `getRequestsTimeStamp()` takes the resolved plan
tier; if the tier is "free" it removes every stored timestamp with score in
the inclusive range `[0, now - 1 hour]`, otherwise it removes every stored
timestamp with score in `[0, now - 3 hours]` (`planWindow` selects exactly
those two bounds); it then returns the full remaining sequence of
timestamps in ascending order. -/
theorem c3_prune_by_plan_window_then_read (id plan : String) (nowMs : Nat) (s : Store)
    (hs : List.Sorted (fun a b => a < b) (s.zsets (limitKey id))) :
    (getRequestsTimeStamp ⟨id⟩ plan nowMs s).1 =
      (s.zsets (limitKey id)).filter
        (fun (t : Nat) =>
          !(decide ((0 : Int) ≤ (t : Int) ∧
            (t : Int) ≤ (nowMs : Int) - (planWindow plan : Int)))) ∧
    List.Sorted (fun a b => a < b) (getRequestsTimeStamp ⟨id⟩ plan nowMs s).1 := by
  refine ⟨getRequestsTimeStamp_fst ⟨id⟩ plan nowMs s, ?_⟩
  rw [getRequestsTimeStamp_fst ⟨id⟩ plan nowMs s]
  exact hs.filter _

/-- C4: for every identity, after a sequence of `newRequest()` calls at
strictly increasing timestamps starting from an empty set, a subsequent
`getRequestsTimeStamp()` returns exactly those timestamps in ascending
order, provided none of them is older than the identity's plan window
(1 hour for free, 3 hours otherwise). -/
theorem c4_new_requests_then_read_returns_all (id plan : String) (ts : List Nat)
    (nowMs : Nat) (s : Store)
    (hsorted : List.Sorted (fun a b => a < b) ts)
    (hempty : s.zsets (limitKey id) = [])
    (hfresh : ∀ t ∈ ts, (nowMs : Int) - (planWindow plan : Int) < (t : Int)) :
    (getRequestsTimeStamp ⟨id⟩ plan nowMs (newRequests ⟨id⟩ ts s)).1 = ts := by
  have hz : (newRequests ⟨id⟩ ts s).zsets (limitKey id) = ts := by
    have h1 := newRequests_zsets ⟨id⟩ ts s
    rw [show (AccessControlDAL.mk id).emailOrIP = id from rfl, hempty] at h1
    rw [h1]
    simpa using foldl_zinsert_of_sorted ts [] (by simpa using hsorted)
  rw [getRequestsTimeStamp_fst ⟨id⟩ plan nowMs (newRequests ⟨id⟩ ts s)]
  rw [show (AccessControlDAL.mk id).emailOrIP = id from rfl, hz]
  refine List.filter_eq_self.mpr ?_
  intro t ht
  have hf := hfresh t ht
  simp only [Bool.not_eq_true', decide_eq_false_iff_not, not_and, not_le]
  intro _
  exact hf

/-- A concrete store holding three timestamps for identity `u@v`. -/
def storeWithThree : Store :=
  { Store.empty with
    zsets := fun k => if k = limitKey "u@v" then [1000, 3700000, 7000000] else [] }

theorem c3_prune_by_plan_window_then_read_witness :
    List.Sorted (fun a b => a < b) (storeWithThree.zsets (limitKey "u@v")) ∧
    ((getRequestsTimeStamp ⟨"u@v"⟩ "free" 7200000 storeWithThree).1 =
      (storeWithThree.zsets (limitKey "u@v")).filter
        (fun (t : Nat) =>
          !(decide ((0 : Int) ≤ (t : Int) ∧
            (t : Int) ≤ ((7200000 : Nat) : Int) - (planWindow "free" : Int)))) ∧
     List.Sorted (fun a b => a < b)
       (getRequestsTimeStamp ⟨"u@v"⟩ "free" 7200000 storeWithThree).1) :=
  ⟨by decide,
   c3_prune_by_plan_window_then_read "u@v" "free" 7200000 storeWithThree (by decide)⟩

theorem c4_new_requests_then_read_returns_all_witness :
    List.Sorted (fun a b => a < b) ([10, 20] : List Nat) ∧
    Store.empty.zsets (limitKey "a@b") = [] ∧
    (∀ t ∈ ([10, 20] : List Nat),
      ((30 : Nat) : Int) - (planWindow "free" : Int) < (t : Int)) ∧
    (getRequestsTimeStamp ⟨"a@b"⟩ "free" 30 (newRequests ⟨"a@b"⟩ [10, 20] Store.empty)).1 =
      [10, 20] :=
  ⟨by decide, by decide, by decide,
   c4_new_requests_then_read_returns_all "a@b" "free" [10, 20] 30 Store.empty
     (by decide) (by decide) (by decide)⟩

end AccessControl
